import Mathlib

/-!
Verification of the MidiPortal Rust engine against its natural-language
specification.

The development shallowly embeds the Rust sources:
  * `src/rust/midi_engine/src/midi_processor.rs` (message decoder),
  * `src/rust/midi_engine/src/note_tracker.rs`   (note/expression tracker),
  * `src/rust/midi_engine/src/mpe.rs`            (MPE zone manager),
  * `src/rust/src/midi_engine/src/sysex.rs`      (SysEx / MPE init machine),
  * `src/rust/src/midi_engine/src/lib.rs`        (RustMidiStats),
  * `src/rust/src/shared_buffer.rs`              (lock-free ring transport).

Modelling conventions:
  * `f64` values are modelled as `ℚ` (the claims under study only store,
    copy and compare these values; no claim depends on rounding).
  * Rust machine integers are modelled as `Nat` with explicit `% 2^w`
    wherever wrap-around matters (u8 arithmetic in `configure_zone`).
  * `HashMap<(u8,u8), NoteExpression>` is modelled as a function
    `Nat × Nat → Option NoteExpression`; `Vec` push is list append.
  * A Rust panic (out-of-bounds slice index) is modelled by the
    `PanicOr.panicked` constructor; `catch_unwind` closures in the source
    only call total tracker operations, so they cannot unwind and are
    modelled by their bodies.
  * The ring buffer's byte region is a function `Nat → Nat`; multi-byte
    stores/loads are little-endian byte lists (the source uses the
    machine's single native endianness on both sides, so the round-trip
    statements are endianness-independent).
-/

/-! ## Error type (`src/rust/src/midi_engine/src/lib.rs`, `MidiError`) -/

inductive MidiError : Type where
  | InvalidData : String → MidiError
  | ProcessingError : String → MidiError
  | TimingError : String → MidiError
deriving DecidableEq, Repr

/-- Outcome of running Rust code that may panic (index out of bounds). -/
inductive PanicOr (α : Type) : Type where
  | panicked : PanicOr α
  | value : α → PanicOr α
deriving DecidableEq, Repr

/-! ## Note tracker (`src/rust/midi_engine/src/note_tracker.rs`) -/

structure NoteExpression : Type where
  note : Nat
  channel : Nat
  velocity : ℚ
  pitch_bend : ℚ
  pressure : ℚ
  timbre : ℚ
  start_time : ℚ
  last_update : ℚ
deriving DecidableEq, Repr

structure NoteTracker : Type where
  active_notes : Nat × Nat → Option NoteExpression
  history : List NoteExpression

def NoteTracker.new : NoteTracker :=
  { active_notes := fun _ => none, history := [] }

/-- `NoteTracker::note_on`: bounds-checks, then inserts/overwrites the
active entry keyed by `(note, channel)`.  Note that velocity `0` passes
the bounds check and is inserted like any other velocity. -/
def NoteTracker.note_on (tr : NoteTracker) (note channel velocity : Nat)
    (timestamp : ℚ) : NoteTracker :=
  if note > 127 ∨ channel > 15 ∨ velocity > 127 then tr
  else
    let expr : NoteExpression :=
      { note := note, channel := channel, velocity := (velocity : ℚ) / 127,
        pitch_bend := 0, pressure := 0, timbre := 1/2,
        start_time := timestamp, last_update := timestamp }
    { tr with active_notes :=
        fun k => if k = (note, channel) then some expr else tr.active_notes k }

/-- `NoteTracker::note_off`: bounds-checks, removes the active entry if
present and appends it to `history` with `last_update := timestamp`. -/
def NoteTracker.note_off (tr : NoteTracker) (note channel : Nat)
    (timestamp : ℚ) : NoteTracker :=
  if note > 127 ∨ channel > 15 then tr
  else
    match tr.active_notes (note, channel) with
    | none => tr
    | some expr =>
      { tr with
        active_notes :=
          fun k => if k = (note, channel) then none else tr.active_notes k,
        history := tr.history ++ [{ expr with last_update := timestamp }] }

/-- `NoteTracker::update_pitch_bend`: applies to every active note on the
given channel. -/
def NoteTracker.update_pitch_bend (tr : NoteTracker) (channel : Nat)
    (value timestamp : ℚ) : NoteTracker :=
  { tr with active_notes := fun k =>
      match tr.active_notes k with
      | some e =>
        if e.channel = channel then
          some { e with pitch_bend := value, last_update := timestamp }
        else some e
      | none => none }

/-! ## MPE zone manager (`src/rust/midi_engine/src/mpe.rs`) -/

structure MpeZone : Type where
  master_channel : Nat
  member_channels : List Nat
  pitch_bend_range : ℚ
  is_active : Bool
deriving DecidableEq, Repr

structure MpeConfiguration : Type where
  lower_zone : Option MpeZone
  upper_zone : Option MpeZone
deriving DecidableEq, Repr

def MpeConfiguration.new : MpeConfiguration :=
  { lower_zone := none, upper_zone := none }

/-- Rust's inclusive range collect `(lo..=hi).collect()` on `u8`. -/
def rangeIncl (lo hi : Nat) : List Nat :=
  List.range' lo (hi + 1 - lo)

/-- `MpeConfiguration::configure_zone`.  `member_count` is a `u8`; the
arithmetic `member_count + 1` (lower) and `16 - member_count` (upper) is
u8 arithmetic, modelled with explicit wrap-around `% 256`. -/
def MpeConfiguration.configure_zone (cfg : MpeConfiguration)
    (is_lower : Bool) (member_count : Nat) (bend_range : ℚ) :
    MpeConfiguration :=
  let zone : MpeZone :=
    if is_lower then
      { master_channel := 1,
        member_channels := rangeIncl 2 ((member_count + 1) % 256),
        pitch_bend_range := bend_range,
        is_active := true }
    else
      { master_channel := 16,
        member_channels := rangeIncl ((16 + 256 - member_count % 256) % 256) 15,
        pitch_bend_range := bend_range,
        is_active := true }
  if is_lower then { cfg with lower_zone := some zone }
  else { cfg with upper_zone := some zone }

/-- `MpeConfiguration::is_mpe_channel`. -/
def MpeConfiguration.is_mpe_channel (cfg : MpeConfiguration)
    (channel : Nat) : Bool :=
  (match cfg.lower_zone with
   | some zone => zone.is_active && zone.member_channels.contains channel
   | none => false)
  || (match cfg.upper_zone with
      | some zone => zone.is_active && zone.member_channels.contains channel
      | none => false)

/-- `MpeConfiguration::is_master_channel`. -/
def MpeConfiguration.is_master_channel (cfg : MpeConfiguration)
    (channel : Nat) : Bool :=
  (match cfg.lower_zone with
   | some zone => zone.is_active && zone.master_channel == channel
   | none => false)
  || (match cfg.upper_zone with
      | some zone => zone.is_active && zone.master_channel == channel
      | none => false)

/-- The per-zone condition used by `get_bend_range`. -/
def MpeZone.bendMatches (zone : MpeZone) (channel : Nat) : Bool :=
  zone.is_active &&
    (zone.master_channel == channel || zone.member_channels.contains channel)

/-- `MpeConfiguration::get_bend_range`: checks lower zone, then upper
zone, defaulting to 2 semitones. -/
def MpeConfiguration.get_bend_range (cfg : MpeConfiguration)
    (channel : Nat) : ℚ :=
  match cfg.lower_zone with
  | some zone =>
    if zone.bendMatches channel then zone.pitch_bend_range
    else
      match cfg.upper_zone with
      | some z2 =>
        if z2.bendMatches channel then z2.pitch_bend_range else 2
      | none => 2
  | none =>
    match cfg.upper_zone with
    | some z2 =>
      if z2.bendMatches channel then z2.pitch_bend_range else 2
    | none => 2

/-! ## MPE initialization machine (`src/rust/src/midi_engine/src/sysex.rs`) -/

inductive MpeInitState : Type where
  | NotInitialized
  | AllNotesOff
  | ControllersReset
  | ZoneConfigured
  | BendRangeSet
  | Ready
deriving DecidableEq, Repr

structure MpeInitTracker : Type where
  state : MpeInitState
  last_message_time : ℚ
  timeout : ℚ
deriving DecidableEq, Repr

def MpeInitTracker.new : MpeInitTracker :=
  { state := .NotInitialized, last_message_time := 0, timeout := 1 }

/-- `MpeInitTracker::process_message`: timeout check first, then the
handshake transition table (the Rust `match` on `(state, message_type)`
is written as a `match` on the state with an equality test on the
expected message type in each arm; any other pair falls through to the
`ProcessingError`). -/
def MpeInitTracker.process_message (tr : MpeInitTracker)
    (message_type : Nat) (timestamp : ℚ) :
    MpeInitTracker × Except MidiError Unit :=
  if timestamp - tr.last_message_time > tr.timeout ∧
      tr.state ≠ .NotInitialized ∧ tr.state ≠ .Ready then
    ({ tr with state := .NotInitialized },
     .error (.TimingError "MPE initialization timeout"))
  else
    let tr := { tr with last_message_time := timestamp }
    let fail : MpeInitTracker × Except MidiError Unit :=
      (tr, .error (.ProcessingError "Unexpected MPE initialization message"))
    match tr.state with
    | .NotInitialized =>
      if message_type = 0x7B then ({ tr with state := .AllNotesOff }, .ok ())
      else fail
    | .AllNotesOff =>
      if message_type = 0x79 then
        ({ tr with state := .ControllersReset }, .ok ())
      else fail
    | .ControllersReset =>
      if message_type = 0x02 then
        ({ tr with state := .ZoneConfigured }, .ok ())
      else fail
    | .ZoneConfigured =>
      if message_type = 0x03 then ({ tr with state := .Ready }, .ok ())
      else fail
    | .BendRangeSet => fail
    | .Ready => fail

/-- `MpeInitTracker::is_initialized`. -/
def MpeInitTracker.is_initialized (tr : MpeInitTracker) : Bool :=
  tr.state == .Ready

/-! ## Engine statistics (`src/rust/src/midi_engine/src/lib.rs`) -/

structure RustMidiStats : Type where
  current_bpm : ℚ
  average_bpm : ℚ
  jitter : ℚ
  clock_count : Int
  last_clock_time : ℚ
  mpe_config : MpeConfiguration
  note_tracker : NoteTracker
  mpe_init : MpeInitTracker

def RustMidiStats.new : RustMidiStats :=
  { current_bpm := 0, average_bpm := 0, jitter := 0, clock_count := 0,
    last_clock_time := 0, mpe_config := MpeConfiguration.new,
    note_tracker := NoteTracker.new, mpe_init := MpeInitTracker.new }

/-! ## SysEx processing (`src/rust/src/midi_engine/src/sysex.rs`) -/

/-- `process_mcm_message` (called with `&data[2..]`).  The
`MCM_SET_BEND_RANGE` arm computes and logs the bend range but performs
no state mutation (the update is an unimplemented TODO in the source);
only the `MCM_SET_ZONE` arm mutates, always with a 48-semitone range. -/
def process_mcm_message (data : List Nat) (_timestamp : ℚ)
    (stats : RustMidiStats) : RustMidiStats × Except MidiError Unit :=
  if data.length < 3 then
    (stats, .error (.InvalidData "MCM message too short"))
  else if data.getD 0 0 ≠ 0x7F ∨ data.getD 1 0 ≠ 0x06 then
    (stats, .ok ())
  else if data.getD 2 0 = 0x02 then
    if data.length < 4 then
      (stats, .error (.InvalidData "Invalid zone configuration message"))
    else
      let zone_config := data.getD 3 0
      let is_lower_zone : Bool := zone_config &&& 0x10 == 0
      let member_channels := zone_config &&& 0x0F
      ({ stats with mpe_config :=
           stats.mpe_config.configure_zone is_lower_zone member_channels 48 },
       .ok ())
  else if data.getD 2 0 = 0x03 then
    if data.length < 5 then
      (stats, .error (.InvalidData "Invalid pitch bend range message"))
    else
      (stats, .ok ())
  else
    (stats, .ok ())

/-- `process_sysex`: validates `F0 … F7` framing and forwards universal
SysEx (`0x7E`) payloads to `process_mcm_message`. -/
def process_sysex (data : List Nat) (timestamp : ℚ)
    (stats : RustMidiStats) : RustMidiStats × Except MidiError Unit :=
  if data.length < 3 ∨ data.getD 0 0 ≠ 0xF0 ∨
      data.getD (data.length - 1) 0 ≠ 0xF7 then
    (stats, .error (.InvalidData "Invalid SysEx message format"))
  else if data.getD 1 0 = 0x7E then
    process_mcm_message (data.drop 2) timestamp stats
  else
    (stats, .ok ())

/-! ## Message decoder (`src/rust/midi_engine/src/midi_processor.rs`) -/

/-- `process_note_on`: bounds check, then velocity dispatch.  The
`catch_unwind` in the source wraps total tracker calls and cannot
unwind, so it is modelled by its body. -/
def process_note_on (note velocity channel : Nat) (timestamp : ℚ)
    (stats : RustMidiStats) : RustMidiStats × Except MidiError Unit :=
  if note > 127 ∨ channel > 15 then
    (stats, .error (.InvalidData "Note or channel out of range"))
  else if velocity > 0 then
    ({ stats with note_tracker :=
         stats.note_tracker.note_on note channel velocity timestamp },
     .ok ())
  else
    ({ stats with note_tracker :=
         stats.note_tracker.note_off note channel timestamp },
     .ok ())

/-- `process_note_off`. -/
def process_note_off (note _velocity channel : Nat) (timestamp : ℚ)
    (stats : RustMidiStats) : RustMidiStats × Except MidiError Unit :=
  if note > 127 ∨ channel > 15 then
    (stats, .error (.InvalidData "Note or channel out of range"))
  else
    ({ stats with note_tracker :=
         stats.note_tracker.note_off note channel timestamp },
     .ok ())

def process_modulation_wheel (_value _channel : Nat) (_timestamp : ℚ)
    (stats : RustMidiStats) : RustMidiStats × Except MidiError Unit :=
  (stats, .ok ())

def process_mpe_brightness (_value _channel : Nat) (_timestamp : ℚ)
    (stats : RustMidiStats) : RustMidiStats × Except MidiError Unit :=
  (stats, .ok ())

def process_mpe_expression (_value _channel : Nat) (_timestamp : ℚ)
    (stats : RustMidiStats) : RustMidiStats × Except MidiError Unit :=
  (stats, .ok ())

/-- `process_cc`: dispatch on the controller number. -/
def process_cc (controller value channel : Nat) (timestamp : ℚ)
    (stats : RustMidiStats) : RustMidiStats × Except MidiError Unit :=
  if controller = 1 then process_modulation_wheel value channel timestamp stats
  else if controller = 74 then
    process_mpe_brightness value channel timestamp stats
  else if controller = 11 then
    process_mpe_expression value channel timestamp stats
  else (stats, .ok ())

/-- `process_timing_clock`: clock counter, EWMA BPM/jitter estimation.
(`0.9`/`0.1` are written `9/10`/`1/10` in `ℚ`.) -/
def process_timing_clock (timestamp : ℚ) (stats : RustMidiStats) :
    RustMidiStats × Except MidiError Unit :=
  let s1 := { stats with clock_count := stats.clock_count + 1 }
  if s1.last_clock_time > 0 then
    let interval := timestamp - s1.last_clock_time
    let instant_bpm := 60 / (interval * 24)
    let current_bpm := s1.current_bpm * (9/10) + instant_bpm * (1/10)
    let average_bpm :=
      (s1.average_bpm * ((s1.clock_count : ℚ) - 1) + instant_bpm) /
        (s1.clock_count : ℚ)
    let expected_interval := 60 / (current_bpm * 24)
    let jitter := |interval - expected_interval|
    ({ s1 with current_bpm := current_bpm, average_bpm := average_bpm,
               jitter := s1.jitter * (9/10) + jitter * (1/10),
               last_clock_time := timestamp },
     .ok ())
  else
    ({ s1 with last_clock_time := timestamp }, .ok ())

/-- `process_pitch_bend`: 14-bit combine `(msb << 7) | lsb` (disjoint
bit ranges for `u8` inputs, hence `msb * 128 + lsb`), normalized to
`[-1, +1]` and broadcast to the channel's active notes. -/
def process_pitch_bend (lsb msb channel : Nat) (timestamp : ℚ)
    (stats : RustMidiStats) : RustMidiStats × Except MidiError Unit :=
  let combined := msb * 128 + lsb
  let normalized := ((combined : ℚ) - 8192) / 8192
  ({ stats with note_tracker :=
       stats.note_tracker.update_pitch_bend channel normalized timestamp },
   .ok ())

/-- `process_start`: resets `clock_count` and stamps `last_clock_time`. -/
def process_start (timestamp : ℚ) (stats : RustMidiStats) :
    RustMidiStats × Except MidiError Unit :=
  ({ stats with clock_count := 0, last_clock_time := timestamp }, .ok ())

/-- `process_stop`: accepted and ignored. -/
def process_stop (_timestamp : ℚ) (stats : RustMidiStats) :
    RustMidiStats × Except MidiError Unit :=
  (stats, .ok ())

/-- `process_message`: the decoder dispatch on `data[0]`.  The arms for
`0x90`, `0x80` and `0xB0` evaluate `data[1]` and `data[2]` with no
length check — on a slice shorter than 3 bytes this indexing panics,
modelled by `PanicOr.panicked`.  The `0xE0` arm checks the length first
and reports `InvalidData`. -/
def process_message (data : List Nat) (timestamp : ℚ)
    (stats : RustMidiStats) :
    PanicOr (RustMidiStats × Except MidiError Unit) :=
  if data.isEmpty then
    .value (stats, .error (.InvalidData "Empty MIDI message"))
  else
    let b := data.getD 0 0
    if b = 0xF8 then .value (process_timing_clock timestamp stats)
    else if b = 0x90 then
      if 3 ≤ data.length then
        .value (process_note_on (data.getD 1 0) (data.getD 2 0) (b % 16)
          timestamp stats)
      else .panicked
    else if b = 0x80 then
      if 3 ≤ data.length then
        .value (process_note_off (data.getD 1 0) (data.getD 2 0) (b % 16)
          timestamp stats)
      else .panicked
    else if b = 0xB0 then
      if 3 ≤ data.length then
        .value (process_cc (data.getD 1 0) (data.getD 2 0) (b % 16)
          timestamp stats)
      else .panicked
    else if b = 0xE0 then
      if 3 ≤ data.length then
        .value (process_pitch_bend (data.getD 1 0) (data.getD 2 0) (b % 16)
          timestamp stats)
      else
        .value (stats, .error (.InvalidData "Incomplete pitch bend message"))
    else if b = 0xFA then .value (process_start timestamp stats)
    else if b = 0xFC then .value (process_stop timestamp stats)
    else .value (stats, .ok ())

/-! ## Helper lemmas -/

/-- Membership in Rust's inclusive range collect. -/
theorem mem_rangeIncl (c lo hi : Nat) :
    c ∈ rangeIncl lo hi ↔ lo ≤ c ∧ c ≤ hi := by
  unfold rangeIncl
  rw [List.mem_range'_1]
  omega

/-- Run a sequence of `(message_type, timestamp)` pairs through the MPE
initialization machine, collecting each step's result. -/
def MpeInitTracker.runSequence (tr : MpeInitTracker) :
    List (Nat × ℚ) → MpeInitTracker × List (Except MidiError Unit)
  | [] => (tr, [])
  | (m, t) :: rest =>
    let r := tr.process_message m t
    let rr := r.fst.runSequence rest
    (rr.fst, r.snd :: rr.snd)

/-! ## Claim C6 -/

/-- C6: processing a Start message (single byte `0xFA`) through the
decoder sets `clock_count` to `0` and `last_clock_time` to the message's
timestamp, and leaves every other field of the stats unchanged
(`current_bpm`, `average_bpm`, `jitter`, the note tracker, the MPE
configuration and the MPE init state all keep their prior values, as the
record update shows). -/
theorem c6_start_resets_clock (stats : RustMidiStats) (t : ℚ) :
    process_message [0xFA] t stats =
      .value ({ stats with clock_count := 0, last_clock_time := t }, .ok ()) :=
  rfl

/-! ## Claim C2 -/

/-- C2 (code bug): the claim says every too-short message fails with an
`InvalidData` error.  The code does so for the empty message and for a
short pitch-bend (`0xE0`) message, but for leading bytes `0x90`, `0x80`
and `0xB0` with fewer than 3 bytes it evaluates `data[1]`/`data[2]`
without any length check and panics with an index-out-of-bounds (the
`parse_note_data`/`parse_cc_data` helpers that implement the claimed
check exist in the source but are never called). -/
theorem c2_short_message_behaviour :
    process_message [0x90] 0 RustMidiStats.new = .panicked ∧
    process_message [0x90, 60] 0 RustMidiStats.new = .panicked ∧
    process_message [0x80] 0 RustMidiStats.new = .panicked ∧
    process_message [0x80, 60] 0 RustMidiStats.new = .panicked ∧
    process_message [0xB0] 0 RustMidiStats.new = .panicked ∧
    process_message [0xB0, 7] 0 RustMidiStats.new = .panicked ∧
    process_message [] 0 RustMidiStats.new =
      .value (RustMidiStats.new, .error (.InvalidData "Empty MIDI message")) ∧
    process_message [0xE0] 0 RustMidiStats.new =
      .value (RustMidiStats.new,
        .error (.InvalidData "Incomplete pitch bend message")) :=
  ⟨rfl, rfl, rfl, rfl, rfl, rfl, rfl, rfl⟩

/-! ## Claim C9 -/

/-- C9: the decoder dispatches only on the exact status bytes `0x90`,
`0x80`, `0xB0`, `0xE0` (and system bytes), so a channel-voice status on
a nonzero channel (`0x81`–`0x8F`, `0x91`–`0x9F`, `0xB1`–`0xBF`,
`0xE1`–`0xEF`) falls into the catch-all arm: `process_message` returns
`Ok(())` and leaves the stats unchanged.  Consequently the only channel
value `data[0] & 0x0F` ever handed to the note tracker is `0`. -/
theorem c9_nonzero_channel_ignored (data : List Nat) (t : ℚ)
    (stats : RustMidiStats) (b : Nat) (hb : data.head? = some b)
    (hrange : (0x81 ≤ b ∧ b ≤ 0x8F) ∨ (0x91 ≤ b ∧ b ≤ 0x9F) ∨
      (0xB1 ≤ b ∧ b ≤ 0xBF) ∨ (0xE1 ≤ b ∧ b ≤ 0xEF)) :
    process_message data t stats = .value (stats, .ok ()) := by
  obtain ⟨x, xs, rfl⟩ : ∃ x xs, data = x :: xs := by
    cases data with
    | nil => simp at hb
    | cons x xs => exact ⟨x, xs, rfl⟩
  have hx : x = b := by simpa using hb
  subst hx
  have n1 : x ≠ 0xF8 := by omega
  have n2 : x ≠ 0x90 := by rcases hrange with ⟨h1, h2⟩ | ⟨h1, h2⟩ | ⟨h1, h2⟩ | ⟨h1, h2⟩ <;> omega
  have n3 : x ≠ 0x80 := by rcases hrange with ⟨h1, h2⟩ | ⟨h1, h2⟩ | ⟨h1, h2⟩ | ⟨h1, h2⟩ <;> omega
  have n4 : x ≠ 0xB0 := by rcases hrange with ⟨h1, h2⟩ | ⟨h1, h2⟩ | ⟨h1, h2⟩ | ⟨h1, h2⟩ <;> omega
  have n5 : x ≠ 0xE0 := by rcases hrange with ⟨h1, h2⟩ | ⟨h1, h2⟩ | ⟨h1, h2⟩ | ⟨h1, h2⟩ <;> omega
  have n6 : x ≠ 0xFA := by rcases hrange with ⟨h1, h2⟩ | ⟨h1, h2⟩ | ⟨h1, h2⟩ | ⟨h1, h2⟩ <;> omega
  have n7 : x ≠ 0xFC := by rcases hrange with ⟨h1, h2⟩ | ⟨h1, h2⟩ | ⟨h1, h2⟩ | ⟨h1, h2⟩ <;> omega
  simp [process_message, n1, n2, n3, n4, n5, n6, n7]

/-- C9 witness: a Note On status on channel 1 (`0x91`) is accepted and
ignored. -/
theorem c9_nonzero_channel_ignored_witness :
    process_message [0x91, 60, 100] 0 RustMidiStats.new =
      .value (RustMidiStats.new, .ok ()) :=
  c9_nonzero_channel_ignored [0x91, 60, 100] 0 RustMidiStats.new 0x91 rfl
    (Or.inr (Or.inl ⟨by omega, by omega⟩))

/-! ## Claim C3 -/

/-- C3 counterexample: a well-formed MCM Set-Zone SysEx message fed to
the decoder's `process_message` is accepted and *ignored* (the stats,
including the MPE configuration, are returned unchanged), even though
`process_sysex` applied to the very same bytes would configure a zone
(its resulting `lower_zone` is `some …` while a fresh configuration has
`none`).  So the SysEx payload is *not* forwarded to the MPE machinery
by the decoder's dispatch. -/
theorem c3_counterexample :
    process_message [0xF0, 0x7E, 0x7F, 0x06, 0x02, 0x05, 0xF7] 0
        RustMidiStats.new = .value (RustMidiStats.new, .ok ()) ∧
    ((process_sysex [0xF0, 0x7E, 0x7F, 0x06, 0x02, 0x05, 0xF7] 0
        RustMidiStats.new).fst.mpe_config.lower_zone).isSome = true ∧
    (RustMidiStats.new.mpe_config.lower_zone).isSome = false :=
  ⟨rfl, rfl, rfl⟩

/-- C3 (amended): every input whose leading byte is `0xF0` falls into
`process_message`'s catch-all arm: it returns `Ok(())` with the stats
unchanged; `process_sysex`/`process_mcm_message` are not reachable from
the decoder's dispatch. -/
theorem c3_sysex_ignored_by_decoder (data : List Nat) (t : ℚ)
    (stats : RustMidiStats) (hhd : data.head? = some 0xF0) :
    process_message data t stats = .value (stats, .ok ()) := by
  obtain ⟨x, xs, rfl⟩ : ∃ x xs, data = x :: xs := by
    cases data with
    | nil => simp at hhd
    | cons x xs => exact ⟨x, xs, rfl⟩
  have hx : x = 0xF0 := by simpa using hhd
  subst hx
  rfl

/-- C3 witness: the amended theorem at a concrete SysEx message. -/
theorem c3_sysex_ignored_by_decoder_witness :
    process_message [0xF0, 0x7E, 0xF7] 0 RustMidiStats.new =
      .value (RustMidiStats.new, .ok ()) :=
  c3_sysex_ignored_by_decoder [0xF0, 0x7E, 0xF7] 0 RustMidiStats.new rfl

/-! ## Claim C4 -/

/-- C4 counterexample: `NoteTracker::note_on` itself does *not* treat
velocity `0` as a note-off — on a fresh tracker, `note_on(60, 0, 0, t)`
creates a new active entry (velocity `0` passes the bounds check and is
inserted like any other velocity), contradicting the claim that "in no
case is a new active entry created". -/
theorem c4_counterexample :
    (NoteTracker.new.note_on 60 0 0 0).active_notes (60, 0) ≠ none ∧
    NoteTracker.new.active_notes (60, 0) = none := by
  constructor
  · intro h
    simp [NoteTracker.new, NoteTracker.note_on] at h
  · rfl

/-- C4 (amended): the velocity-0-is-note-off rule lives in the decoder's
note-on handler `process_note_on`, not in `NoteTracker::note_on`: for
in-range note and channel, `process_note_on` with velocity `0` calls
`NoteTracker::note_off`, which removes the key from the active set and
archives it to history with `last_update = t` when it was active, and
creates no entry (is a no-op) when it was not. -/
theorem c4_decoder_velocity_zero (stats : RustMidiStats)
    (note channel : Nat) (t : ℚ) (hn : note ≤ 127) (hc : channel ≤ 15) :
    process_note_on note 0 channel t stats =
      ({ stats with note_tracker :=
           stats.note_tracker.note_off note channel t }, .ok ()) ∧
    (stats.note_tracker.note_off note channel t).active_notes
      (note, channel) = none ∧
    (∀ expr, stats.note_tracker.active_notes (note, channel) = some expr →
      (stats.note_tracker.note_off note channel t).history =
        stats.note_tracker.history ++ [{ expr with last_update := t }]) ∧
    (stats.note_tracker.active_notes (note, channel) = none →
      stats.note_tracker.note_off note channel t = stats.note_tracker) := by
  have hb : ¬ (note > 127 ∨ channel > 15) := by omega
  refine ⟨?_, ?_, ?_, ?_⟩
  · simp [process_note_on, hb]
  · cases h : stats.note_tracker.active_notes (note, channel) with
    | none => simp [NoteTracker.note_off, hb, h]
    | some e => simp [NoteTracker.note_off, hb, h]
  · intro expr h
    simp [NoteTracker.note_off, hb, h]
  · intro h
    simp [NoteTracker.note_off, hb, h]

/-- C4 witness: the amended theorem at note 60, channel 0, a fresh
engine and `t = 1`. -/
theorem c4_decoder_velocity_zero_witness :
    (RustMidiStats.new.note_tracker.note_off 60 0 1).active_notes
      (60, 0) = none :=
  (c4_decoder_velocity_zero RustMidiStats.new 60 0 1 (by omega)
    (by omega)).2.1

/-! ## Claim C8 -/

/-- C8: for in-range note/channel, velocity `1..=127` and `t1 ≤ t2`,
`note_on` followed by `note_off` leaves `(note, channel)` absent from
the active set and appends exactly one history entry, with
`start_time = t1` and `last_update = t2` (so `last_update ≥ start_time`
holds by `t1 ≤ t2`). -/
theorem c8_note_lifecycle (tr : NoteTracker) (note channel velocity : Nat)
    (t1 t2 : ℚ) (hn : note ≤ 127) (hc : channel ≤ 15)
    (hv1 : 1 ≤ velocity) (hv : velocity ≤ 127) (ht : t1 ≤ t2) :
    ((tr.note_on note channel velocity t1).note_off note channel
        t2).active_notes (note, channel) = none ∧
    ((tr.note_on note channel velocity t1).note_off note channel
        t2).history =
      tr.history ++
        [{ note := note, channel := channel,
           velocity := (velocity : ℚ) / 127, pitch_bend := 0,
           pressure := 0, timbre := 1/2,
           start_time := t1, last_update := t2 }] ∧
    ({ note := note, channel := channel,
       velocity := (velocity : ℚ) / 127, pitch_bend := 0,
       pressure := 0, timbre := 1/2, start_time := t1,
       last_update := t2 : NoteExpression }).start_time ≤
      ({ note := note, channel := channel,
         velocity := (velocity : ℚ) / 127, pitch_bend := 0,
         pressure := 0, timbre := 1/2, start_time := t1,
         last_update := t2 : NoteExpression }).last_update := by
  have hb1 : ¬ (note > 127 ∨ channel > 15 ∨ velocity > 127) := by omega
  have hb2 : ¬ (note > 127 ∨ channel > 15) := by omega
  refine ⟨?_, ?_, ht⟩
  · simp [NoteTracker.note_on, NoteTracker.note_off, hb1, hb2]
  · simp [NoteTracker.note_on, NoteTracker.note_off, hb1, hb2]

/-- C8 witness: a concrete note lifecycle (note 60, channel 2,
velocity 100, times 0 and 1). -/
theorem c8_note_lifecycle_witness :
    ((NoteTracker.new.note_on 60 2 100 0).note_off 60 2 1).active_notes
      (60, 2) = none :=
  (c8_note_lifecycle NoteTracker.new 60 2 100 0 1 (by omega) (by omega)
    (by omega) (by omega) (by norm_num)).1

/-! ## Claim C5 -/

/-- C5 counterexample: in the mid-handshake state `AllNotesOff`, a wrong
message (`Set-Zone`, `0x02`) whose timestamp exceeds the previous
message's time by more than the timeout does *not* return a
`ProcessingError` with the state unchanged: the timeout check fires
first, the machine resets to `NotInitialized` and reports a
`TimingError`. -/
theorem c5_counterexample :
    (MpeInitTracker.process_message ⟨.AllNotesOff, 0, 1⟩ 0x02 5).fst.state =
      .NotInitialized ∧
    (MpeInitTracker.process_message ⟨.AllNotesOff, 0, 1⟩ 0x02 5).snd =
      .error (.TimingError "MPE initialization timeout") := by
  have h5 : (5 : ℚ) - 0 > 1 := by norm_num
  constructor <;> simp [MpeInitTracker.process_message, h5]

/-- C5 (amended): (1) from `NotInitialized`, feeding `0x7B`, `0x79`,
Set-Zone (`0x02`), Set-Bend-Range (`0x03`) in order, each at most
`timeout = 1` after the previous, returns `Ok` at every step and ends in
`Ready` with `is_initialized() = true`; (2) in a mid-handshake state
(`AllNotesOff`, `ControllersReset`, `ZoneConfigured`), any message other
than the expected next one — *provided it arrives within the timeout* —
returns a `ProcessingError` and leaves the `state` field unchanged. -/
theorem c5_handshake (t1 t2 t3 t4 : ℚ)
    (h12 : t2 - t1 ≤ 1) (h23 : t3 - t2 ≤ 1) (h34 : t4 - t3 ≤ 1) :
    (MpeInitTracker.runSequence MpeInitTracker.new
        [(0x7B, t1), (0x79, t2), (0x02, t3), (0x03, t4)] =
      (⟨.Ready, t4, 1⟩, [.ok (), .ok (), .ok (), .ok ()]) ∧
     (MpeInitTracker.runSequence MpeInitTracker.new
        [(0x7B, t1), (0x79, t2), (0x02, t3), (0x03, t4)]).fst.is_initialized =
       true) ∧
    (∀ (st : MpeInitState) (last timeout t : ℚ) (msg : Nat),
      ((st = .AllNotesOff ∧ msg ≠ 0x79) ∨
       (st = .ControllersReset ∧ msg ≠ 0x02) ∨
       (st = .ZoneConfigured ∧ msg ≠ 0x03)) →
      t - last ≤ timeout →
      (MpeInitTracker.process_message ⟨st, last, timeout⟩ msg t).fst.state =
        st ∧
      (MpeInitTracker.process_message ⟨st, last, timeout⟩ msg t).snd =
        .error (.ProcessingError "Unexpected MPE initialization message")) := by
  constructor
  · have n12 : ¬ ((t2 - t1 : ℚ) > 1) := not_lt.mpr h12
    have n23 : ¬ ((t3 - t2 : ℚ) > 1) := not_lt.mpr h23
    have n34 : ¬ ((t4 - t3 : ℚ) > 1) := not_lt.mpr h34
    constructor
    · simp [MpeInitTracker.runSequence, MpeInitTracker.process_message,
        MpeInitTracker.new, n12, n23, n34]
    · simp [MpeInitTracker.runSequence, MpeInitTracker.process_message,
        MpeInitTracker.new, MpeInitTracker.is_initialized, n12, n23, n34]
  · intro st last timeout t msg hcase htime
    have ntime : ¬ ((t - last : ℚ) > timeout) := not_lt.mpr htime
    rcases hcase with ⟨rfl, hmsg⟩ | ⟨rfl, hmsg⟩ | ⟨rfl, hmsg⟩ <;>
      constructor <;>
        simp [MpeInitTracker.process_message, ntime, hmsg]

/-- C5 witness: the handshake run at times `0, 1/2, 1, 3/2` and a
within-timeout wrong message in `AllNotesOff`. -/
theorem c5_handshake_witness :
    MpeInitTracker.runSequence MpeInitTracker.new
        [(0x7B, 0), (0x79, 1/2), (0x02, 1), (0x03, 3/2)] =
      (⟨.Ready, 3/2, 1⟩, [.ok (), .ok (), .ok (), .ok ()]) ∧
    (MpeInitTracker.process_message ⟨.AllNotesOff, 0, 1⟩ 0x02
        (1/2)).fst.state = .AllNotesOff :=
  ⟨(c5_handshake 0 (1/2) 1 (3/2) (by norm_num) (by norm_num)
      (by norm_num)).1.1,
   ((c5_handshake 0 (1/2) 1 (3/2) (by norm_num) (by norm_num)
      (by norm_num)).2 .AllNotesOff 0 1 (1/2) 0x02
      (Or.inl ⟨rfl, by omega⟩) (by norm_num)).1⟩

/-! ## Claim C7 -/

/-- C7 counterexample: `member_count` is a `u8` and the upper-zone
arithmetic `16 - member_count` wraps: for `member_count = 17` the
computed range `255..=15` is empty, so the configured upper zone has *no*
member channels and `is_mpe_channel(15) = false` — while the claim's
formula `{16−N, …, 15}` would make channel 15 a member for every
`N ≥ 1`. -/
theorem c7_counterexample :
    (MpeConfiguration.new.configure_zone false 17 48).upper_zone =
      some { master_channel := 16, member_channels := [],
             pitch_bend_range := 48, is_active := true } ∧
    (MpeConfiguration.new.configure_zone false 17 48).is_mpe_channel 15 =
      false :=
  ⟨rfl, rfl⟩

/-- C7 (amended): for `member_count = N ≤ 15` (all values expressible in
the Set-Zone payload's 4-bit member-count field) and any bend range `b`:
`configure_zone(true, N, b)` yields a lower zone with master channel 1
and member channels exactly `{2, …, N+1}`; `configure_zone(false, N, b)`
yields an upper zone with master channel 16 and member channels exactly
`{16−N, …, 15}`; `is_mpe_channel(c)` is true exactly when `c` is in the
member set of an active zone; and after `configure_zone(true, 5, b)`
from a fresh configuration, channels 2 and 6 are MPE channels and
channel 7 is not. -/
theorem c7_zone_configuration (cfg : MpeConfiguration) (N : Nat) (b : ℚ)
    (hN : N ≤ 15) :
    ((cfg.configure_zone true N b).lower_zone =
        some { master_channel := 1, member_channels := rangeIncl 2 (N + 1),
               pitch_bend_range := b, is_active := true } ∧
      ∀ c, c ∈ rangeIncl 2 (N + 1) ↔ 2 ≤ c ∧ c ≤ N + 1) ∧
    ((cfg.configure_zone false N b).upper_zone =
        some { master_channel := 16,
               member_channels := rangeIncl (16 - N) 15,
               pitch_bend_range := b, is_active := true } ∧
      ∀ c, c ∈ rangeIncl (16 - N) 15 ↔ 16 - N ≤ c ∧ c ≤ 15) ∧
    (∀ c : Nat, cfg.is_mpe_channel c = true ↔
      ∃ z : MpeZone, (cfg.lower_zone = some z ∨ cfg.upper_zone = some z) ∧
        z.is_active = true ∧ c ∈ z.member_channels) ∧
    ((MpeConfiguration.new.configure_zone true 5 b).is_mpe_channel 2 =
        true ∧
     (MpeConfiguration.new.configure_zone true 5 b).is_mpe_channel 6 =
        true ∧
     (MpeConfiguration.new.configure_zone true 5 b).is_mpe_channel 7 =
        false) := by
  have hmod1 : (N + 1) % 256 = N + 1 := Nat.mod_eq_of_lt (by omega)
  have hmodN : N % 256 = N := Nat.mod_eq_of_lt (by omega)
  have hmod2 : (16 + 256 - N % 256) % 256 = 16 - N := by
    rw [hmodN]; omega
  refine ⟨⟨?_, fun c => mem_rangeIncl c 2 (N + 1)⟩,
    ⟨?_, fun c => mem_rangeIncl c (16 - N) 15⟩, ?_, rfl, rfl, rfl⟩
  · simp [MpeConfiguration.configure_zone, hmod1]
  · simp [MpeConfiguration.configure_zone, hmod2]
  · intro c
    cases hl : cfg.lower_zone with
    | none =>
      cases hu : cfg.upper_zone with
      | none => simp [MpeConfiguration.is_mpe_channel, hl, hu]
      | some zu =>
        simp [MpeConfiguration.is_mpe_channel, hl, hu, List.elem_iff,
          and_comm]
    | some zl =>
      cases hu : cfg.upper_zone with
      | none =>
        simp [MpeConfiguration.is_mpe_channel, hl, hu, List.elem_iff,
          and_comm]
      | some zu =>
        simp only [MpeConfiguration.is_mpe_channel, hl, hu,
          Bool.or_eq_true, Bool.and_eq_true, List.elem_iff]
        constructor
        · rintro (⟨ha, hm⟩ | ⟨ha, hm⟩)
          · exact ⟨zl, Or.inl rfl, ha, hm⟩
          · exact ⟨zu, Or.inr rfl, ha, hm⟩
        · rintro ⟨z, hz | hz, ha, hm⟩ <;> rw [Option.some_inj] at hz <;>
            subst hz
          · exact Or.inl ⟨ha, hm⟩
          · exact Or.inr ⟨ha, hm⟩

/-- C7 witness: the amended theorem at `N = 5`, lower zone, fresh
configuration. -/
theorem c7_zone_configuration_witness :
    (MpeConfiguration.new.configure_zone true 5 48).lower_zone =
      some { master_channel := 1, member_channels := rangeIncl 2 6,
             pitch_bend_range := 48, is_active := true } ∧
    (MpeConfiguration.new.configure_zone true 5 48).is_mpe_channel 7 =
      false :=
  ⟨(c7_zone_configuration MpeConfiguration.new 5 48 (by omega)).1.1,
   (c7_zone_configuration MpeConfiguration.new 5 48 (by omega)).2.2.2.2.2⟩

/-! ## Claim C10 -/

/-- C10: (1) a well-formed MCM Set-Bend-Range SysEx message
`F0 7E 7F 06 03 msb lsb F7` processed by `process_sysex` returns `Ok`
and leaves the stats — in particular the MPE zone configuration, hence
every channel's `get_bend_range` answer — completely unchanged (the
bend-range update is an unimplemented TODO in the source, which only
logs); (2) whenever `process_mcm_message` changes the MPE configuration
the command byte `data[2]` is Set-Zone (`0x02`); (3) the Set-Zone
command configures the zone with a hard-coded pitch-bend range of 48
semitones regardless of input. -/
theorem c10_bend_range_not_applied :
    (∀ (stats : RustMidiStats) (t : ℚ) (msb lsb : Nat),
      process_sysex [0xF0, 0x7E, 0x7F, 0x06, 0x03, msb, lsb, 0xF7] t stats =
        (stats, .ok ())) ∧
    (∀ (data : List Nat) (t : ℚ) (stats : RustMidiStats),
      data.getD 2 0 ≠ 0x02 →
      (process_mcm_message data t stats).fst.mpe_config = stats.mpe_config) ∧
    (∀ (data : List Nat) (t : ℚ) (stats : RustMidiStats),
      data.getD 2 0 = 0x02 → 4 ≤ data.length →
      data.getD 0 0 = 0x7F → data.getD 1 0 = 0x06 →
      (process_mcm_message data t stats).fst.mpe_config =
        stats.mpe_config.configure_zone (data.getD 3 0 &&& 0x10 == 0)
          (data.getD 3 0 &&& 0x0F) 48) := by
  refine ⟨fun stats t msb lsb => rfl, ?_, ?_⟩
  · intro data t stats h
    simp only [process_mcm_message]
    split_ifs <;> simp_all
  · intro data t stats h2 hlen h0 h1
    simp only [process_mcm_message]
    rw [if_neg (by omega),
      if_neg (fun hOr => hOr.elim (fun hA => hA h0) (fun hB => hB h1)),
      if_pos h2, if_neg (by omega)]

/-- C10 witness: a concrete Set-Zone payload reaches `configure_zone`
with the hard-coded 48-semitone range. -/
theorem c10_bend_range_not_applied_witness :
    (process_mcm_message [0x7F, 0x06, 0x02, 0x05] 0
        RustMidiStats.new).fst.mpe_config =
      MpeConfiguration.new.configure_zone true 5 48 :=
  c10_bend_range_not_applied.2.2 [0x7F, 0x06, 0x02, 0x05] 0
    RustMidiStats.new rfl (by decide) rfl rfl

/-! ## Ring transport (`src/rust/src/shared_buffer.rs`)

The shared byte region is modelled as a function `Nat → Nat`; the raw
`u32`/`u64` stores are modelled as little-endian byte sequences (the
source performs native-endian stores and loads on the same machine, so
the round-trip behaviour is independent of the chosen endianness). -/

structure MidiEvent : Type where
  data : List Nat
  timestamp : Nat
  device_name : List Nat
deriving DecidableEq, Repr

/-- Little-endian byte decomposition of a value into `n` bytes. -/
def leBytes : Nat → Nat → List Nat
  | 0, _ => []
  | n + 1, v => v % 256 :: leBytes n (v / 256)

def u32Bytes (v : Nat) : List Nat := leBytes 4 v

def u64Bytes (v : Nat) : List Nat := leBytes 8 v

/-- Little-endian byte recomposition. -/
def leVal : List Nat → Nat
  | [] => 0
  | b :: bs => b + 256 * leVal bs

/-- Store a byte list into memory at consecutive positions. -/
def storeBytes : (Nat → Nat) → Nat → List Nat → Nat → Nat
  | mem, _, [] => mem
  | mem, p, b :: bs => storeBytes (fun i => if i = p then b else mem i) (p + 1) bs

/-- Load `n` consecutive bytes from memory. -/
def loadBytes (mem : Nat → Nat) (p n : Nat) : List Nat :=
  (List.range n).map fun i => mem (p + i)

def loadU32 (mem : Nat → Nat) (p : Nat) : Nat := leVal (loadBytes mem p 4)

def loadU64 (mem : Nat → Nat) (p : Nat) : Nat := leVal (loadBytes mem p 8)

structure SharedMidiBuffer : Type where
  capacity : Nat
  mem : Nat → Nat
  write_pos : Nat
  read_pos : Nat

/-- `SharedMidiBuffer::new`: a fresh buffer over an arbitrary
(uninitialized, `malloc`ed) memory region. -/
def SharedMidiBuffer.new (capacity : Nat) (mem0 : Nat → Nat) :
    SharedMidiBuffer :=
  { capacity := capacity, mem := mem0, write_pos := 0, read_pos := 0 }

/-- `SharedMidiBuffer::write`: space check against the cursor distance,
then the sequential frame serialization
`[u32 total_size][u64 timestamp][u32 data_len][data][u32 name_len][name]`,
then the write cursor is published modulo the capacity. -/
def SharedMidiBuffer.write (b : SharedMidiBuffer) (event : MidiEvent) :
    SharedMidiBuffer × Bool :=
  let data_len := event.data.length
  let device_name_len := event.device_name.length
  let total_size := 8 + 4 + data_len + 4 + device_name_len
  let write_pos := b.write_pos
  let read_pos := b.read_pos
  let available_space :=
    if write_pos ≥ read_pos then b.capacity - (write_pos - read_pos)
    else read_pos - write_pos
  if total_size + 4 > available_space then (b, false)
  else
    let pos := write_pos
    let mem := storeBytes b.mem pos (u32Bytes total_size)
    let pos := pos + 4
    let mem := storeBytes mem pos (u64Bytes event.timestamp)
    let pos := pos + 8
    let mem := storeBytes mem pos (u32Bytes data_len)
    let pos := pos + 4
    let mem := storeBytes mem pos event.data
    let pos := pos + data_len
    let mem := storeBytes mem pos (u32Bytes device_name_len)
    let pos := pos + 4
    let mem := storeBytes mem pos event.device_name
    let pos := pos + device_name_len
    ({ b with mem := mem, write_pos := pos % b.capacity }, true)

/-- `SharedMidiBuffer::read`: empty test by cursor equality, then frame
deserialization (the leading `total_size` word is read and discarded, as
in the source), then the read cursor is published modulo the capacity. -/
def SharedMidiBuffer.read (b : SharedMidiBuffer) :
    SharedMidiBuffer × Option MidiEvent :=
  let read_pos := b.read_pos
  let write_pos := b.write_pos
  if read_pos = write_pos then (b, none)
  else
    let pos := read_pos
    let _total_size := loadU32 b.mem pos
    let pos := pos + 4
    let timestamp := loadU64 b.mem pos
    let pos := pos + 8
    let data_len := loadU32 b.mem pos
    let pos := pos + 4
    let data := loadBytes b.mem pos data_len
    let pos := pos + data_len
    let device_name_len := loadU32 b.mem pos
    let pos := pos + 4
    let device_name := loadBytes b.mem pos device_name_len
    let pos := pos + device_name_len
    ({ b with read_pos := pos % b.capacity },
     some { data := data, timestamp := timestamp,
            device_name := device_name })

/-- `total_size` as computed by `write` (everything after the 4-byte
size prefix). -/
def MidiEvent.total_size (e : MidiEvent) : Nat :=
  8 + 4 + e.data.length + 4 + e.device_name.length

/-- The full on-wire size of one frame, size prefix included. -/
def MidiEvent.framedSize (e : MidiEvent) : Nat :=
  4 + e.total_size

/-- The serialized frame of one event. -/
def MidiEvent.frameBytes (e : MidiEvent) : List Nat :=
  u32Bytes e.total_size ++ (u64Bytes e.timestamp ++
    (u32Bytes e.data.length ++ (e.data ++
      (u32Bytes e.device_name.length ++ e.device_name))))

/-- Representation bounds guaranteed by the Rust types: the timestamp is
a `u64` and the two lengths are stored through an `as u32` cast. -/
def MidiEvent.wf (e : MidiEvent) : Prop :=
  e.timestamp < 2 ^ 64 ∧ e.data.length < 2 ^ 32 ∧
    e.device_name.length < 2 ^ 32

instance (e : MidiEvent) : Decidable e.wf := by
  unfold MidiEvent.wf; infer_instance

/-- Total framed size of a list of events. -/
def framesLen (es : List MidiEvent) : Nat :=
  (es.map MidiEvent.framedSize).sum

/-- Concatenated frames of a list of events. -/
def framesJoin (es : List MidiEvent) : List Nat :=
  (es.map MidiEvent.frameBytes).flatten

/-- Write a list of events in order, collecting each write's result. -/
def SharedMidiBuffer.writeList (b : SharedMidiBuffer) :
    List MidiEvent → SharedMidiBuffer × List Bool
  | [] => (b, [])
  | e :: rest =>
    let r := b.write e
    let rr := r.fst.writeList rest
    (rr.fst, r.snd :: rr.snd)

/-- Read `n` events in order, collecting each read's result. -/
def SharedMidiBuffer.readList (b : SharedMidiBuffer) :
    Nat → SharedMidiBuffer × List (Option MidiEvent)
  | 0 => (b, [])
  | n + 1 =>
    let r := b.read
    let rr := r.fst.readList n
    (rr.fst, r.snd :: rr.snd)

/-! ### Byte-level lemmas -/

theorem leBytes_length (n : Nat) : ∀ v, (leBytes n v).length = n := by
  induction n with
  | zero => intro v; rfl
  | succ n ih => intro v; simp [leBytes, ih]

theorem u32Bytes_length (v : Nat) : (u32Bytes v).length = 4 :=
  leBytes_length 4 v

theorem u64Bytes_length (v : Nat) : (u64Bytes v).length = 8 :=
  leBytes_length 8 v

theorem leVal_leBytes (n : Nat) : ∀ v, leVal (leBytes n v) = v % 256 ^ n := by
  induction n with
  | zero => intro v; simp [leBytes, leVal, Nat.mod_one]
  | succ n ih =>
    intro v
    rw [leBytes, leVal, ih, ← Nat.mod_mul_right_div_self,
      show (256 : Nat) ^ (n + 1) = 256 * 256 ^ n by rw [pow_succ, mul_comm],
      ← Nat.mod_mod_of_dvd v ⟨256 ^ n, rfl⟩]
    exact Nat.mod_add_div _ _

theorem storeBytes_outside (bs : List Nat) :
    ∀ (mem : Nat → Nat) (p i : Nat), i < p ∨ p + bs.length ≤ i →
      storeBytes mem p bs i = mem i := by
  induction bs with
  | nil => intro mem p i _; rfl
  | cons b bs ih =>
    intro mem p i h
    simp only [List.length_cons] at h
    rw [storeBytes, ih _ (p + 1) i (by omega)]
    exact if_neg (by omega)

theorem storeBytes_get (bs : List Nat) :
    ∀ (mem : Nat → Nat) (p i : Nat), i < bs.length →
      storeBytes mem p bs (p + i) = bs.getD i 0 := by
  induction bs with
  | nil => intro mem p i h; simp at h
  | cons b bs ih =>
    intro mem p i h
    cases i with
    | zero =>
      rw [storeBytes, storeBytes_outside bs _ (p + 1) (p + 0) (by omega)]
      simp
    | succ i =>
      rw [storeBytes, show p + (i + 1) = (p + 1) + i by omega,
        ih _ (p + 1) i (by simp at h; omega)]
      simp

theorem storeBytes_append (xs ys : List Nat) :
    ∀ (mem : Nat → Nat) (p : Nat),
      storeBytes mem p (xs ++ ys) =
        storeBytes (storeBytes mem p xs) (p + xs.length) ys := by
  induction xs with
  | nil => intro mem p; simp [storeBytes]
  | cons x xs ih =>
    intro mem p
    rw [List.cons_append, storeBytes, storeBytes, ih]
    simp only [List.length_cons]
    rw [show p + 1 + xs.length = p + (xs.length + 1) by omega]

/-- `mem` holds exactly the bytes `bs` starting at position `p`. -/
def MemMatches (mem : Nat → Nat) (p : Nat) (bs : List Nat) : Prop :=
  ∀ i, i < bs.length → mem (p + i) = bs.getD i 0

theorem memMatches_storeBytes (mem : Nat → Nat) (p : Nat) (bs : List Nat) :
    MemMatches (storeBytes mem p bs) p bs :=
  fun i hi => storeBytes_get bs mem p i hi

theorem MemMatches.append_left {mem : Nat → Nat} {p : Nat}
    {xs ys : List Nat} (h : MemMatches mem p (xs ++ ys)) :
    MemMatches mem p xs := by
  intro i hi
  have hx := h i (by simp; omega)
  rwa [List.getD_append _ _ _ _ hi] at hx

theorem MemMatches.append_right_at {mem : Nat → Nat} {p k : Nat}
    {xs ys : List Nat} (h : MemMatches mem p (xs ++ ys))
    (hk : xs.length = k) : MemMatches mem (p + k) ys := by
  subst hk
  intro i hi
  have hx := h (xs.length + i) (by simp; omega)
  rw [show p + (xs.length + i) = p + xs.length + i by omega] at hx
  rwa [List.getD_append_right _ _ _ _ (by omega),
    show xs.length + i - xs.length = i by omega] at hx

theorem loadBytes_succ (mem : Nat → Nat) (p n : Nat) :
    loadBytes mem p (n + 1) = mem p :: loadBytes mem (p + 1) n := by
  unfold loadBytes
  rw [List.range_succ_eq_map, List.map_cons, List.map_map]
  refine congrArg₂ List.cons (by simp) ?_
  apply List.map_congr_left
  intro i _
  show mem (p + (i + 1)) = mem (p + 1 + i)
  congr 1
  omega

theorem loadBytes_of_memMatches {mem : Nat → Nat} (bs : List Nat) :
    ∀ p, MemMatches mem p bs → loadBytes mem p bs.length = bs := by
  induction bs with
  | nil => intro p _; rfl
  | cons b bs ih =>
    intro p h
    rw [List.length_cons, loadBytes_succ]
    have h0 : mem p = b := by simpa using h 0 (by simp)
    have ht : MemMatches mem (p + 1) bs := by
      intro i hi
      have hx := h (i + 1) (by simp; omega)
      rw [show p + (i + 1) = p + 1 + i by omega] at hx
      simpa using hx
    rw [h0, ih _ ht]

theorem loadU32_of_memMatches {mem : Nat → Nat} {p v : Nat}
    (h : MemMatches mem p (u32Bytes v)) : loadU32 mem p = v % 2 ^ 32 := by
  have hl := loadBytes_of_memMatches (u32Bytes v) p h
  rw [u32Bytes_length] at hl
  rw [loadU32, hl, u32Bytes, leVal_leBytes]
  norm_num

theorem loadU64_of_memMatches {mem : Nat → Nat} {p v : Nat}
    (h : MemMatches mem p (u64Bytes v)) : loadU64 mem p = v % 2 ^ 64 := by
  have hl := loadBytes_of_memMatches (u64Bytes v) p h
  rw [u64Bytes_length] at hl
  rw [loadU64, hl, u64Bytes, leVal_leBytes]
  norm_num

/-! ### Frame-level lemmas -/

theorem frameBytes_length (e : MidiEvent) :
    e.frameBytes.length = e.framedSize := by
  simp [MidiEvent.frameBytes, MidiEvent.framedSize, MidiEvent.total_size,
    u32Bytes_length, u64Bytes_length]
  omega

theorem framesLen_nil : framesLen [] = 0 := rfl

theorem framesLen_cons (e : MidiEvent) (es : List MidiEvent) :
    framesLen (e :: es) = e.framedSize + framesLen es := by
  simp [framesLen]

theorem framesJoin_nil : framesJoin [] = [] := rfl

theorem framesJoin_cons (e : MidiEvent) (es : List MidiEvent) :
    framesJoin (e :: es) = e.frameBytes ++ framesJoin es := by
  simp [framesJoin]

theorem framedSize_pos (e : MidiEvent) : 0 < e.framedSize := by
  simp [MidiEvent.framedSize, MidiEvent.total_size]

/-- Decomposing a frame in memory into its five payload fields at the
offsets used by `read`. -/
theorem frame_fields {mem : Nat → Nat} {p : Nat} {e : MidiEvent}
    (h : MemMatches mem p e.frameBytes) :
    MemMatches mem (p + 4) (u64Bytes e.timestamp) ∧
    MemMatches mem (p + 4 + 8) (u32Bytes e.data.length) ∧
    MemMatches mem (p + 4 + 8 + 4) e.data ∧
    MemMatches mem (p + 4 + 8 + 4 + e.data.length)
      (u32Bytes e.device_name.length) ∧
    MemMatches mem (p + 4 + 8 + 4 + e.data.length + 4) e.device_name := by
  rw [MidiEvent.frameBytes] at h
  have h1 := h.append_right_at (u32Bytes_length _)
  have h2 := h1.append_right_at (u64Bytes_length _)
  have h3 := h2.append_right_at (u32Bytes_length _)
  have h4 := h3.append_right_at (rfl : e.data.length = e.data.length)
  have h5 := h4.append_right_at (u32Bytes_length _)
  exact ⟨h1.append_left, h2.append_left, h3.append_left, h4.append_left, h5⟩

/-! ### Single-operation specifications -/

/-- A successful `write` with the read cursor at 0: returns `true`,
stores the frame at the write cursor and advances the write cursor by
the framed size (modulo capacity). -/
theorem write_success (b : SharedMidiBuffer) (e : MidiEvent)
    (hr : b.read_pos = 0) (hsp : b.write_pos + e.framedSize ≤ b.capacity) :
    (b.write e).snd = true ∧
    (b.write e).fst.capacity = b.capacity ∧
    (b.write e).fst.read_pos = b.read_pos ∧
    (b.write e).fst.write_pos = (b.write_pos + e.framedSize) % b.capacity ∧
    (b.write e).fst.mem = storeBytes b.mem b.write_pos e.frameBytes := by
  have hfs : e.framedSize =
      4 + (8 + 4 + e.data.length + 4 + e.device_name.length) := rfl
  rw [hfs] at hsp
  have hge : b.write_pos ≥ b.read_pos := by omega
  simp only [SharedMidiBuffer.write]
  rw [if_pos hge, hr, if_neg (by omega)]
  refine ⟨rfl, rfl, rfl, ?_, ?_⟩
  · show (b.write_pos + 4 + 8 + 4 + e.data.length + 4 +
        e.device_name.length) % b.capacity =
      (b.write_pos + e.framedSize) % b.capacity
    congr 1
    rw [hfs]
    omega
  · show storeBytes (storeBytes (storeBytes (storeBytes (storeBytes
        (storeBytes b.mem b.write_pos
          (u32Bytes (8 + 4 + e.data.length + 4 + e.device_name.length)))
        (b.write_pos + 4) (u64Bytes e.timestamp))
        (b.write_pos + 4 + 8) (u32Bytes e.data.length))
        (b.write_pos + 4 + 8 + 4) e.data)
        (b.write_pos + 4 + 8 + 4 + e.data.length)
        (u32Bytes e.device_name.length))
        (b.write_pos + 4 + 8 + 4 + e.data.length + 4) e.device_name =
      storeBytes b.mem b.write_pos e.frameBytes
    simp only [MidiEvent.frameBytes]
    rw [storeBytes_append, u32Bytes_length, storeBytes_append,
      u64Bytes_length, storeBytes_append, u32Bytes_length,
      storeBytes_append, storeBytes_append, u32Bytes_length]
    rfl

/-- A successful `read` of a frame for event `e` stored at the read
cursor: returns `some e`, leaves memory and the write cursor unchanged
and advances the read cursor by the framed size (modulo capacity). -/
theorem read_success (b : SharedMidiBuffer) (e : MidiEvent)
    (hne : b.read_pos ≠ b.write_pos)
    (hts : e.timestamp < 2 ^ 64) (hdl : e.data.length < 2 ^ 32)
    (hnl : e.device_name.length < 2 ^ 32)
    (hmatch : MemMatches b.mem b.read_pos e.frameBytes) :
    (b.read).snd = some e ∧
    (b.read).fst.capacity = b.capacity ∧
    (b.read).fst.write_pos = b.write_pos ∧
    (b.read).fst.mem = b.mem ∧
    (b.read).fst.read_pos = (b.read_pos + e.framedSize) % b.capacity := by
  obtain ⟨hB, hC, hD, hE, hF⟩ := frame_fields hmatch
  have eT : loadU64 b.mem (b.read_pos + 4) = e.timestamp := by
    rw [loadU64_of_memMatches hB]
    exact Nat.mod_eq_of_lt hts
  have eDL : loadU32 b.mem (b.read_pos + 4 + 8) = e.data.length := by
    rw [loadU32_of_memMatches hC]
    exact Nat.mod_eq_of_lt hdl
  have eD : loadBytes b.mem (b.read_pos + 4 + 8 + 4) e.data.length =
      e.data :=
    loadBytes_of_memMatches e.data _ hD
  have eNL : loadU32 b.mem (b.read_pos + 4 + 8 + 4 + e.data.length) =
      e.device_name.length := by
    rw [loadU32_of_memMatches hE]
    exact Nat.mod_eq_of_lt hnl
  have eN : loadBytes b.mem (b.read_pos + 4 + 8 + 4 + e.data.length + 4)
      e.device_name.length = e.device_name :=
    loadBytes_of_memMatches e.device_name _ hF
  simp only [SharedMidiBuffer.read]
  rw [if_neg hne, eDL, eD, eNL, eN, eT]
  refine ⟨rfl, rfl, rfl, rfl, ?_⟩
  show (b.read_pos + 4 + 8 + 4 + e.data.length + 4 +
      e.device_name.length) % b.capacity =
    (b.read_pos + e.framedSize) % b.capacity
  congr 1
  have hfs : e.framedSize =
      4 + (8 + 4 + e.data.length + 4 + e.device_name.length) := rfl
  rw [hfs]
  omega

/-! ### Multi-event specifications -/

/-- Writing a list of events into a buffer whose read cursor is at 0 and
whose frames fit strictly below the capacity: every write returns
`true`, the frames land back-to-back at the write cursor and the write
cursor ends just past them (no wrap-around occurs). -/
theorem writeList_spec (es : List MidiEvent) :
    ∀ b : SharedMidiBuffer, b.read_pos = 0 →
      b.write_pos + framesLen es < b.capacity →
      (b.writeList es).snd = List.replicate es.length true ∧
      (b.writeList es).fst.capacity = b.capacity ∧
      (b.writeList es).fst.read_pos = 0 ∧
      (b.writeList es).fst.write_pos = b.write_pos + framesLen es ∧
      (b.writeList es).fst.mem =
        storeBytes b.mem b.write_pos (framesJoin es) := by
  induction es with
  | nil =>
    intro b hr hcap
    exact ⟨rfl, rfl, hr, by simp [SharedMidiBuffer.writeList, framesLen],
      by simp [SharedMidiBuffer.writeList, framesJoin, storeBytes]⟩
  | cons e rest ih =>
    intro b hr hcap
    rw [framesLen_cons] at hcap
    have hsp : b.write_pos + e.framedSize ≤ b.capacity := by omega
    obtain ⟨w1, w2, w3, w4, w5⟩ := write_success b e hr hsp
    have hwp : (b.write e).fst.write_pos = b.write_pos + e.framedSize := by
      rw [w4]
      exact Nat.mod_eq_of_lt (by omega)
    have hcap2 : (b.write e).fst.write_pos + framesLen rest <
        (b.write e).fst.capacity := by
      rw [hwp, w2]
      omega
    obtain ⟨i1, i2, i3, i4, i5⟩ :=
      ih (b.write e).fst (by rw [w3, hr]) hcap2
    refine ⟨?_, ?_, ?_, ?_, ?_⟩
    · show (b.write e).snd :: ((b.write e).fst.writeList rest).snd = _
      rw [w1, i1, List.length_cons, List.replicate_succ]
    · show ((b.write e).fst.writeList rest).fst.capacity = _
      rw [i2, w2]
    · exact i3
    · show ((b.write e).fst.writeList rest).fst.write_pos = _
      rw [i4, hwp, framesLen_cons]
      omega
    · show ((b.write e).fst.writeList rest).fst.mem = _
      rw [i5, w5, hwp, framesJoin_cons, storeBytes_append,
        frameBytes_length]

/-- Reading back a list of events whose frames sit back-to-back between
the read cursor and the write cursor (write cursor strictly inside the
buffer): every read returns `some` of the corresponding event and the
read cursor ends at the write cursor. -/
theorem readList_spec (es : List MidiEvent) :
    ∀ b : SharedMidiBuffer, (∀ e ∈ es, e.wf) →
      b.write_pos < b.capacity →
      b.read_pos + framesLen es = b.write_pos →
      MemMatches b.mem b.read_pos (framesJoin es) →
      (b.readList es.length).snd = es.map some ∧
      (b.readList es.length).fst.capacity = b.capacity ∧
      (b.readList es.length).fst.write_pos = b.write_pos ∧
      (b.readList es.length).fst.mem = b.mem ∧
      (b.readList es.length).fst.read_pos = b.write_pos := by
  induction es with
  | nil =>
    intro b _ _ heq _
    rw [framesLen_nil] at heq
    exact ⟨rfl, rfl, rfl, rfl, by simp [SharedMidiBuffer.readList]; omega⟩
  | cons e rest ih =>
    intro b hwf hlt heq hm
    rw [framesLen_cons] at heq
    have hpos := framedSize_pos e
    have hne : b.read_pos ≠ b.write_pos := by omega
    rw [framesJoin_cons] at hm
    have hwfe := hwf e (by simp)
    obtain ⟨r1, r2, r3, r4, r5⟩ :=
      read_success b e hne hwfe.1 hwfe.2.1 hwfe.2.2 hm.append_left
    have hrp : (b.read).fst.read_pos = b.read_pos + e.framedSize := by
      rw [r5]
      exact Nat.mod_eq_of_lt (by omega)
    obtain ⟨i1, i2, i3, i4, i5⟩ := ih (b.read).fst
      (fun x hx => hwf x (by simp [hx]))
      (by rw [r3, r2]; exact hlt)
      (by rw [hrp, r3]; omega)
      (by rw [r4, hrp]; exact hm.append_right_at (frameBytes_length e))
    refine ⟨?_, ?_, ?_, ?_, ?_⟩
    · show (b.read).snd :: ((b.read).fst.readList rest.length).snd = _
      rw [r1, i1, List.map_cons]
    · show ((b.read).fst.readList rest.length).fst.capacity = _
      rw [i2, r2]
    · show ((b.read).fst.readList rest.length).fst.write_pos = _
      rw [i3, r3]
    · show ((b.read).fst.readList rest.length).fst.mem = _
      rw [i4, r4]
    · show ((b.read).fst.readList rest.length).fst.read_pos = _
      rw [i5, r3]

/-! ## Claim C1 -/

/-- C1 counterexample: one event whose framed size is exactly the buffer
capacity (data 1 byte, name 3 bytes: 4+8+4+1+4+3 = 24 = capacity), so
the total framed size is `≤ capacity` as the claim requires.  The write
succeeds, but the write cursor wraps to `write_pos % capacity = 0 =
read_pos`, so the subsequent read finds the buffer "empty" and returns
`None` instead of the event — the full and empty cursor configurations
are indistinguishable (the limitation §9 of the specification flags). -/
theorem c1_counterexample :
    MidiEvent.framedSize
      { data := [0x90], timestamp := 0,
        device_name := [0x41, 0x42, 0x43] } = 24 ∧
    ((SharedMidiBuffer.new 24 (fun _ => 0)).write
      { data := [0x90], timestamp := 0,
        device_name := [0x41, 0x42, 0x43] }).snd = true ∧
    (((SharedMidiBuffer.new 24 (fun _ => 0)).write
      { data := [0x90], timestamp := 0,
        device_name := [0x41, 0x42, 0x43] }).fst.read).snd = none :=
  ⟨rfl, rfl, rfl⟩

/-- C1 (amended): FIFO round-trip for every sequence of events whose
framed sizes total *strictly less than* the capacity (at exact equality
the write cursor wraps onto the read cursor and the buffer reads as
empty).  From a fresh buffer all `N` writes return `true`, the `N`
subsequent reads return `some` of exactly the events written — same
data bytes, same timestamp, same device name — in order, and one more
read returns `none`.  The well-formedness side conditions are the Rust
representation bounds (`u64` timestamp, `as u32` length casts). -/
theorem c1_ring_roundtrip (cap : Nat) (mem0 : Nat → Nat)
    (es : List MidiEvent) (hwf : ∀ e ∈ es, e.wf)
    (hsum : framesLen es < cap) :
    ((SharedMidiBuffer.new cap mem0).writeList es).snd =
      List.replicate es.length true ∧
    (((SharedMidiBuffer.new cap mem0).writeList es).fst.readList
        es.length).snd = es.map some ∧
    ((((SharedMidiBuffer.new cap mem0).writeList es).fst.readList
        es.length).fst.read).snd = none := by
  obtain ⟨w1, w2, w3, w4, w5⟩ :=
    writeList_spec es (SharedMidiBuffer.new cap mem0) rfl
      (by simp only [SharedMidiBuffer.new]; omega)
  obtain ⟨i1, i2, i3, i4, i5⟩ :=
    readList_spec es ((SharedMidiBuffer.new cap mem0).writeList es).fst hwf
      (by rw [w4, w2]; simp only [SharedMidiBuffer.new]; omega)
      (by rw [w3, w4]; simp [SharedMidiBuffer.new])
      (by rw [w5, w3]
          exact memMatches_storeBytes _ _ (framesJoin es))
  refine ⟨w1, i1, ?_⟩
  simp only [SharedMidiBuffer.read]
  rw [if_pos (by rw [i5, i3])]

/-- C1 witness: a concrete two-event round-trip through a 100-byte
buffer. -/
theorem c1_ring_roundtrip_witness :
    ((SharedMidiBuffer.new 100 (fun _ => 0)).writeList
        [{ data := [0x90, 60, 100], timestamp := 12345,
           device_name := [65] },
         { data := [0x80, 60, 0], timestamp := 67890,
           device_name := [66, 67] }]).snd =
      List.replicate 2 true ∧
    (((SharedMidiBuffer.new 100 (fun _ => 0)).writeList
        [{ data := [0x90, 60, 100], timestamp := 12345,
           device_name := [65] },
         { data := [0x80, 60, 0], timestamp := 67890,
           device_name := [66, 67] }]).fst.readList 2).snd =
      [some { data := [0x90, 60, 100], timestamp := 12345,
              device_name := [65] },
       some { data := [0x80, 60, 0], timestamp := 67890,
              device_name := [66, 67] }] ∧
    ((((SharedMidiBuffer.new 100 (fun _ => 0)).writeList
        [{ data := [0x90, 60, 100], timestamp := 12345,
           device_name := [65] },
         { data := [0x80, 60, 0], timestamp := 67890,
           device_name := [66, 67] }]).fst.readList 2).fst.read).snd =
      none :=
  c1_ring_roundtrip 100 (fun _ => 0)
    [{ data := [0x90, 60, 100], timestamp := 12345, device_name := [65] },
     { data := [0x80, 60, 0], timestamp := 67890, device_name := [66, 67] }]
    (by decide) (by decide)
